import Mathlib

/-!
Verification of the DeepSeek translation engine (`app/ai_engine.py`).

Python strings are modelled as lists of Unicode code points (`List Nat`),
since Python `str` values may hold lone surrogates that Lean `Char` cannot
represent.  Byte strings are likewise `List Nat` with entries below 256.
-/

set_option autoImplicit false
set_option maxRecDepth 8000

namespace AiEngine

/-- Code points of a Lean string literal, used to transcribe the Python
string literals of the source. -/
def cp (s : String) : List Nat := s.data.map Char.toNat

/-- Python `str.isspace` on a single code point (the character class used by
`str.strip()` with no arguments). -/
def isPySpace (c : Nat) : Bool :=
  (9 ≤ c && c ≤ 13) || (28 ≤ c && c ≤ 32) || c == 133 || c == 160 ||
  c == 5760 || (8192 ≤ c && c ≤ 8202) || c == 8232 || c == 8233 ||
  c == 8239 || c == 8287 || c == 12288

/-- Python `line.strip()`: drop whitespace from both ends. -/
def pyStrip (s : List Nat) : List Nat :=
  ((s.dropWhile (fun c => isPySpace c)).reverse.dropWhile (fun c => isPySpace c)).reverse

/-- Python `buffer.split(chr(10))`: split on the newline code point.  Always
returns one more segment than the number of newlines; in particular the
result is never empty (`"".split` gives `[""]`). -/
def pySplitNl : List Nat → List (List Nat)
  | [] => [[]]
  | c :: cs =>
    if c = 10 then [] :: pySplitNl cs
    else
      match pySplitNl cs with
      | [] => [[c]]
      | s :: ss => (c :: s) :: ss

/-- The newline-terminated lines of a text: `lines[:-1]` after the split. -/
def completeLines (s : List Nat) : List (List Nat) := (pySplitNl s).dropLast

/-- The final (possibly empty, possibly partial) segment after the split:
`lines[-1] if lines else ""`. -/
def lastSeg (s : List Nat) : List Nat := (pySplitNl s).getLastD []

/-- State of the incremental UTF-8 decoder: the output so far (reversed),
the number of continuation bytes still expected (`0` between characters),
the accumulated bits, the valid range for the next continuation byte, and
whether an invalid sequence has been met. -/
structure Utf8State where
  out : List Nat
  need : Nat
  acc : Nat
  lo : Nat
  hi : Nat
  err : Bool

/-- Classify a byte in the between-characters state.  The ranges follow the
UTF-8 definition (0xE0/0xF0 forbid overlong forms, 0xED forbids surrogates,
0xF4 caps at U+10FFFF, 0xC0/0xC1/0xF5–0xFF are never valid). -/
def utf8Lead (st : Utf8State) (b : Nat) : Utf8State :=
  if b < 128 then { st with out := b :: st.out, need := 0 }
  else if 194 ≤ b && b ≤ 223 then
    { st with need := 1, acc := b - 192, lo := 128, hi := 191 }
  else if 224 ≤ b && b ≤ 239 then
    { st with
      need := 2
      acc := b - 224
      lo := if b = 224 then 160 else 128
      hi := if b = 237 then 159 else 191 }
  else if 240 ≤ b && b ≤ 244 then
    { st with
      need := 3
      acc := b - 240
      lo := if b = 240 then 144 else 128
      hi := if b = 244 then 143 else 191 }
  else { st with need := 0, err := true }

/-- One step of UTF-8 decoding as CPython performs it, with the "maximal
subpart" policy for invalid input: an invalid sequence is abandoned at the
first offending byte, which is then reconsidered as the start of a new
sequence. -/
def utf8Step (st : Utf8State) (b : Nat) : Utf8State :=
  if st.need = 0 then utf8Lead st b
  else if st.lo ≤ b && b ≤ st.hi then
    let acc := st.acc * 64 + (b - 128)
    if st.need = 1 then { st with out := acc :: st.out, need := 0, acc := 0 }
    else { st with acc := acc, need := st.need - 1, lo := 128, hi := 191 }
  else utf8Lead { st with need := 0, err := true } b

/-- The state of the decoder at the start of a chunk. -/
def utf8Init : Utf8State := ⟨[], 0, 0, 0, 0, false⟩

/-- Decode a byte string as UTF-8.  The Boolean records whether any invalid
sequence was met (a sequence truncated at the end of the input counts).
Under `errors="ignore"` the invalid sequences simply contribute nothing to
the output; under `errors="strict"` the first of them raises
`UnicodeDecodeError` instead. -/
def utf8DecodeCore (bs : List Nat) : List Nat × Bool :=
  let st := bs.foldl utf8Step utf8Init
  (st.out.reverse, st.err || st.need != 0)

/-- Bytes that cannot start any UTF-8 sequence: stray continuation bytes
(0x80–0xBF), the overlong leads 0xC0/0xC1, and 0xF5 upwards. -/
def isInvalidStart (b : Nat) : Bool := (128 ≤ b && b ≤ 193) || 245 ≤ b

/-- The lower bound of the valid range of the first continuation byte
after a multi-byte lead. -/
def contLo (lead : Nat) : Nat :=
  if lead = 224 then 160 else if lead = 240 then 144 else 128

/-- The upper bound of the valid range of the first continuation byte
after a multi-byte lead. -/
def contHi (lead : Nat) : Nat :=
  if lead = 237 then 159 else if lead = 244 then 143 else 191

/-- A well-started but incomplete multi-byte sequence: a bare lead, or a
three- or four-byte lead followed by valid continuation bytes, one short
of completion. -/
def isTruncatedSeq : List Nat → Bool
  | [b] => 194 ≤ b && b ≤ 244
  | [b, c1] => (224 ≤ b && b ≤ 244) && (contLo b ≤ c1 && c1 ≤ contHi b)
  | [b, c1, c2] =>
    (240 ≤ b && b ≤ 244) && (contLo b ≤ c1 && c1 ≤ contHi b) &&
      (128 ≤ c2 && c2 ≤ 191)
  | _ => false

/-- `chunk.decode(utf8, errors=ignore)` (line 153): invalid byte sequences
are dropped, never fatal. -/
def pyDecodeIgnore (bs : List Nat) : List Nat := (utf8DecodeCore bs).1

/-- Strict UTF-8 decoding: `none` where CPython raises `UnicodeDecodeError`. -/
def pyDecodeStrict (bs : List Nat) : Option (List Nat) :=
  let (r, e) := utf8DecodeCore bs
  if e then none else some r

/-- UTF-8 encoding of a scalar value (helper for building test inputs). -/
def utf8EncChar (c : Nat) : List Nat :=
  if c < 128 then [c]
  else if c < 2048 then [192 + c / 64, 128 + c % 64]
  else if c < 65536 then [224 + c / 4096, 128 + (c / 64) % 64, 128 + c % 64]
  else [240 + c / 262144, 128 + (c / 4096) % 64, 128 + (c / 64) % 64, 128 + c % 64]

/-- UTF-8 encoding of a code-point sequence (helper for building test inputs). -/
def utf8Enc (s : List Nat) : List Nat := (s.map utf8EncChar).flatten

example : cp ("data: ") = [100, 97, 116, 97, 58, 32] := by decide

example : pyStrip (cp ("  data: x ")) = cp ("data: x") := by decide

example : pySplitNl (cp ("a\nbc\n")) = [cp ("a"), cp ("bc"), []] := by decide

example : pyDecodeIgnore (utf8Enc (cp ("aé中"))) = cp ("aé中") := by decide

example : pyDecodeIgnore [97, 195] = [97] := by decide

example : pyDecodeIgnore [169, 98] = [98] := by decide

example : pyDecodeStrict [97, 255] = none := by decide

/-! ## Python values

The values `json.loads` can produce: `None`, `bool`, `int`, `float`
(including the `NaN`/`Infinity` constants CPython accepts), `str`, `list`
and `dict`.  Arrays and objects are separate inductives so that all
recursions below are plainly structural.  A float is kept exactly as
`m * 10 ^ e`; CPython rounds it to a double, an approximation irrelevant to
everything proved here.  Objects keep their key/value pairs in parse order,
including duplicates; lookup takes the last binding, as `dict` update does. -/

mutual

inductive JValue where
  | jnull
  | jbool (b : Bool)
  | jint (n : Int)
  | jfloat (m : Int) (e : Int)
  | jnan
  | jinf (neg : Bool)
  | jstr (s : List Nat)
  | jarr (elems : JArr)
  | jobj (items : JObj)

inductive JArr where
  | nil
  | cons (hd : JValue) (tl : JArr)

inductive JObj where
  | nil
  | cons (key : List Nat) (val : JValue) (tl : JObj)

end

/-- Lookup in an object with `dict` semantics: the last binding of a
duplicated key wins, since `dict` construction overwrites earlier ones. -/
def jobjGet : JObj → List Nat → Option JValue
  | .nil, _ => none
  | .cons k v tl, key =>
    match jobjGet tl key with
    | some r => some r
    | none => if k = key then some v else none

/-- The keys of an object, in order, with duplicates. -/
def jobjKeys : JObj → List (List Nat)
  | .nil => []
  | .cons k _ tl => k :: jobjKeys tl

def jarrLength : JArr → Nat
  | .nil => 0
  | .cons _ tl => jarrLength tl + 1

def jarrIsNil : JArr → Bool
  | .nil => true
  | .cons _ _ => false

def jobjIsNil : JObj → Bool
  | .nil => true
  | .cons _ _ _ => false

/-- Python truthiness of a value (`if x:`). -/
def truthy : JValue → Bool
  | .jnull => false
  | .jbool b => b
  | .jint n => n != 0
  | .jfloat m _ => m != 0
  | .jnan => true
  | .jinf _ => true
  | .jstr s => !s.isEmpty
  | .jarr a => !jarrIsNil a
  | .jobj o => !jobjIsNil o

/-- Python type name of a value, as used in exception messages. -/
def pyTypeName : JValue → List Nat
  | .jnull => cp ("NoneType")
  | .jbool _ => cp ("bool")
  | .jint _ => cp ("int")
  | .jfloat _ _ => cp ("float")
  | .jnan => cp ("float")
  | .jinf _ => cp ("float")
  | .jstr _ => cp ("str")
  | .jarr _ => cp ("list")
  | .jobj _ => cp ("dict")

/-- A raised Python exception, carried as its `str(e)` rendering; the code
only ever catches these with a blanket `except`/`except Exception`, so no
finer classification is observable. -/
structure PyExn where
  msg : List Nat

/-- Single-quote a name, as CPython exception messages do. -/
def sq (s : List Nat) : List Nat := 39 :: s ++ [39]

/-- `v.get(k)` — `dict.get` with default `None`; `AttributeError` when `v`
is not a dict. -/
def pyDictGet (v : JValue) (k : List Nat) : Except PyExn JValue :=
  match v with
  | .jobj o => .ok ((jobjGet o k).getD .jnull)
  | _ => .error ⟨sq (pyTypeName v) ++ cp (" object has no attribute ") ++ sq (cp ("get"))⟩

/-- `v.get(k, d)` — `dict.get` with an explicit default. -/
def pyDictGetD (v : JValue) (k : List Nat) (d : JValue) : Except PyExn JValue :=
  match v with
  | .jobj o => .ok ((jobjGet o k).getD d)
  | _ => .error ⟨sq (pyTypeName v) ++ cp (" object has no attribute ") ++ sq (cp ("get"))⟩

/-- `len(v)` — defined for `str`, `list` and `dict` (counting distinct
keys); `TypeError` otherwise. -/
def pyLen (v : JValue) : Except PyExn Nat :=
  match v with
  | .jstr s => .ok s.length
  | .jarr a => .ok (jarrLength a)
  | .jobj o => .ok (jobjKeys o).dedup.length
  | _ => .error ⟨cp ("object of type ") ++ sq (pyTypeName v) ++ cp (" has no len()")⟩

/-- `v[k]` with a string key: dict lookup (`KeyError` when absent),
`TypeError` on everything else. -/
def pySubscr (v : JValue) (k : List Nat) : Except PyExn JValue :=
  match v with
  | .jobj o =>
    match jobjGet o k with
    | some r => .ok r
    | none => .error ⟨sq k⟩
  | .jstr _ => .error ⟨cp ("string indices must be integers")⟩
  | .jarr _ => .error ⟨cp ("list indices must be integers or slices, not str")⟩
  | _ => .error ⟨sq (pyTypeName v) ++ cp (" object is not subscriptable")⟩

/-- `v[0]`: list head, one-character string, `KeyError` for a dict (JSON
keys are strings, so the integer key `0` is never present), `TypeError`
otherwise. -/
def pyIndexZero (v : JValue) : Except PyExn JValue :=
  match v with
  | .jarr (.cons h _) => .ok h
  | .jarr .nil => .error ⟨cp ("list index out of range")⟩
  | .jstr (c :: _) => .ok (.jstr [c])
  | .jstr [] => .error ⟨cp ("string index out of range")⟩
  | .jobj _ => .error ⟨cp ("0")⟩
  | _ => .error ⟨sq (pyTypeName v) ++ cp (" object is not subscriptable")⟩

/-- Does the array contain the given string?  Python `==` between a `str`
and a value of any other type is `False`, so only `str` elements count. -/
def jarrContainsStr : JArr → List Nat → Bool
  | .nil, _ => false
  | .cons (.jstr s) tl, needle => s = needle || jarrContainsStr tl needle
  | .cons _ tl, needle => jarrContainsStr tl needle

/-- Substring test (Python `needle in s` on strings). -/
def isSubstr (needle : List Nat) : List Nat → Bool
  | [] => needle.isEmpty
  | c :: cs => needle.isPrefixOf (c :: cs) || isSubstr needle cs

/-- `needle in v` for a string needle: key test for a dict, substring test
for a string, membership for a list, `TypeError` otherwise. -/
def pyContains (needle : List Nat) (v : JValue) : Except PyExn Bool :=
  match v with
  | .jobj o => .ok (jobjGet o needle).isSome
  | .jstr s => .ok (isSubstr needle s)
  | .jarr a => .ok (jarrContainsStr a needle)
  | _ => .error ⟨cp ("argument of type ") ++ sq (pyTypeName v) ++ cp (" is not iterable")⟩

/-! ## JSON parsing (`json.loads`)

The parser follows `json/scanner.py` and `json/decoder.py` (strict mode,
the default): whitespace is space, tab, newline, carriage return; literals
`null`, `true`, `false` and the CPython extensions `NaN`, `Infinity` and
negated `Infinity`;
numbers by the scanner's regular expression; strings with the eight short
escapes and `\uXXXX` including surrogate-pair combination; arrays and
objects with no trailing commas and double-quoted keys.  Recursive parsers
take fuel, which decreases on every call; each call consumes at least one
character first, so the fuel supplied by `jsonLoads` never runs out. -/

def jsonWsChar (c : Nat) : Bool := c == 32 || c == 9 || c == 10 || c == 13

def skipWs (s : List Nat) : List Nat := s.dropWhile (fun c => jsonWsChar c)

def isDigit (c : Nat) : Bool := 48 ≤ c && c ≤ 57

def hexVal (c : Nat) : Option Nat :=
  if 48 ≤ c && c ≤ 57 then some (c - 48)
  else if 97 ≤ c && c ≤ 102 then some (c - 87)
  else if 65 ≤ c && c ≤ 70 then some (c - 55)
  else none

def natOfDigits (ds : List Nat) : Nat := ds.foldl (fun a d => a * 10 + (d - 48)) 0

/-- Parse a JSON number token at the head of the input, following the
scanner's regular expression: optional minus, integer part with no leading
zero, optional fraction, optional exponent.  A fraction or exponent group
that fails to match is left unconsumed, as in a maximal regular-expression
match.  A number with a fraction or exponent is a float, otherwise an int. -/
def parseNumber (s : List Nat) : Option (JValue × List Nat) :=
  let (neg, s1) :=
    match s with
    | 45 :: r => (true, r)
    | _ => (false, s)
  match s1 with
  | [] => none
  | d :: _ =>
    if !isDigit d then none
    else
      let (intDs, s2) :=
        if d = 48 then ([48], s1.tail)
        else s1.span (fun c => isDigit c)
      let (fracDs, s3) :=
        match s2 with
        | 46 :: r =>
          let (ds, r2) := r.span (fun c => isDigit c)
          if ds.isEmpty then (([] : List Nat), s2) else (ds, r2)
        | _ => ([], s2)
      let (expDs, expNeg, s4) :=
        match s3 with
        | e :: r =>
          if e = 101 || e = 69 then
            let (esign, r1) :=
              match r with
              | 43 :: r2 => (false, r2)
              | 45 :: r2 => (true, r2)
              | _ => (false, r)
            let (ds, r2) := r1.span (fun c => isDigit c)
            if ds.isEmpty then (([] : List Nat), false, s3) else (ds, esign, r2)
          else ([], false, s3)
        | [] => ([], false, s3)
      if fracDs.isEmpty && expDs.isEmpty then
        let m : Int := Int.ofNat (natOfDigits intDs)
        some (.jint (if neg then -m else m), s2)
      else
        let m : Int := Int.ofNat (natOfDigits (intDs ++ fracDs))
        let ex : Int :=
          (if expNeg then -Int.ofNat (natOfDigits expDs) else Int.ofNat (natOfDigits expDs)) -
            Int.ofNat fracDs.length
        some (.jfloat (if neg then -m else m) ex, s4)

/-- Parse the body of a JSON string after the opening quote, following
`json.decoder.py_scanstring` in strict mode: unescaped control characters
below 0x20 are rejected; the eight short escapes and `\uXXXX` escapes are
recognised; a high-surrogate escape immediately followed by a
low-surrogate escape combines into one code point, and a lone surrogate is
kept as such. -/
def parseStringBody : Nat → List Nat → Option (List Nat × List Nat)
  | 0, _ => none
  | _, [] => none
  | fuel + 1, c :: r =>
    if c = 34 then some ([], r)
    else if c = 92 then
      match r with
      | [] => none
      | e :: r2 =>
        if e = 117 then
          match r2 with
          | h1 :: h2 :: h3 :: h4 :: r3 => do
            let v1 ← hexVal h1
            let v2 ← hexVal h2
            let v3 ← hexVal h3
            let v4 ← hexVal h4
            let x := ((v1 * 16 + v2) * 16 + v3) * 16 + v4
            if 55296 ≤ x && x ≤ 56319 then
              match r3 with
              | 92 :: 117 :: g1 :: g2 :: g3 :: g4 :: r4 => do
                let w1 ← hexVal g1
                let w2 ← hexVal g2
                let w3 ← hexVal g3
                let w4 ← hexVal g4
                let y := ((w1 * 16 + w2) * 16 + w3) * 16 + w4
                if 56320 ≤ y && y ≤ 57343 then
                  (parseStringBody fuel r4).map (fun p =>
                    ((65536 + (x - 55296) * 1024 + (y - 56320)) :: p.1, p.2))
                else
                  (parseStringBody fuel r3).map (fun p => (x :: p.1, p.2))
              | 92 :: 117 :: _ => none
              | _ => (parseStringBody fuel r3).map (fun p => (x :: p.1, p.2))
            else (parseStringBody fuel r3).map (fun p => (x :: p.1, p.2))
          | _ => none
        else do
          let ec ←
            if e = 34 then some 34
            else if e = 92 then some 92
            else if e = 47 then some 47
            else if e = 98 then some 8
            else if e = 102 then some 12
            else if e = 110 then some 10
            else if e = 114 then some 13
            else if e = 116 then some 9
            else none
          (parseStringBody fuel r2).map (fun p => (ec :: p.1, p.2))
    else if c < 32 then none
    else (parseStringBody fuel r).map (fun p => (c :: p.1, p.2))

mutual

/-- Parse one JSON value at the head of the input (whitespace already
skipped), following `py_make_scanner.scan_once`. -/
def parseVal : Nat → List Nat → Option (JValue × List Nat)
  | 0, _ => none
  | fuel + 1, s =>
    match s with
    | [] => none
    | c :: r =>
      if c = 34 then
        (parseStringBody (fuel + 1) r).map (fun p => (.jstr p.1, p.2))
      else if c = 123 then
        let r1 := skipWs r
        match r1 with
        | 125 :: r2 => some (.jobj .nil, r2)
        | _ => (parseObjElems fuel r1).map (fun p => (.jobj p.1, p.2))
      else if c = 91 then
        let r1 := skipWs r
        match r1 with
        | 93 :: r2 => some (.jarr .nil, r2)
        | _ => (parseArrElems fuel r1).map (fun p => (.jarr p.1, p.2))
      else if (cp ("null")).isPrefixOf s then some (.jnull, s.drop 4)
      else if (cp ("true")).isPrefixOf s then some (.jbool true, s.drop 4)
      else if (cp ("false")).isPrefixOf s then some (.jbool false, s.drop 5)
      else
        match parseNumber s with
        | some vr => some vr
        | none =>
          if (cp ("NaN")).isPrefixOf s then some (.jnan, s.drop 3)
          else if (cp ("Infinity")).isPrefixOf s then some (.jinf false, s.drop 8)
          else if (cp ("-Infinity")).isPrefixOf s then some (.jinf true, s.drop 9)
          else none

/-- Parse the elements of a non-empty JSON array, starting at the first
element (whitespace skipped), up to and including the closing bracket. -/
def parseArrElems : Nat → List Nat → Option (JArr × List Nat)
  | 0, _ => none
  | fuel + 1, s => do
    let (v, r) ← parseVal fuel s
    let r1 := skipWs r
    match r1 with
    | 93 :: r2 => some (.cons v .nil, r2)
    | 44 :: r2 =>
      (parseArrElems fuel (skipWs r2)).map (fun p => (.cons v p.1, p.2))
    | _ => none

/-- Parse the members of a non-empty JSON object, starting at the first
key (whitespace skipped), up to and including the closing brace. -/
def parseObjElems : Nat → List Nat → Option (JObj × List Nat)
  | 0, _ => none
  | fuel + 1, s =>
    match s with
    | 34 :: r => do
      let (k, r1) ← parseStringBody (fuel + 1) r
      let r2 := skipWs r1
      match r2 with
      | 58 :: r3 => do
        let (v, r4) ← parseVal fuel (skipWs r3)
        let r5 := skipWs r4
        match r5 with
        | 125 :: r6 => some (.cons k v .nil, r6)
        | 44 :: r6 =>
          (parseObjElems fuel (skipWs r6)).map (fun p => (.cons k v p.1, p.2))
        | _ => none
      | _ => none
    | _ => none

end

/-- `json.loads` on a text: skip whitespace, parse one value, require only
whitespace to remain.  `none` where CPython raises `json.JSONDecodeError`. -/
def jsonLoads (s : List Nat) : Option JValue := do
  let (v, r) ← parseVal (s.length + 1) (skipWs s)
  if (skipWs r).isEmpty then some v else none

def hexDigit (n : Nat) : Nat := if n < 10 then 48 + n else 87 + n

def natDigitsAux : Nat → Nat → List Nat
  | 0, _ => []
  | fuel + 1, n =>
    if n < 10 then [48 + n]
    else natDigitsAux fuel (n / 10) ++ [48 + n % 10]

/-- Decimal rendering of a natural number. -/
def natStr (n : Nat) : List Nat := natDigitsAux (n + 1) n

/-- `str` of an int. -/
def intStr : Int → List Nat
  | .ofNat n => natStr n
  | .negSucc n => 45 :: natStr (n + 1)

/-- Rendering of the float value `m * 10 ^ e`.  CPython prints the shortest
decimal form of the nearest binary double; the exact decimal value is shown
here, which agrees on simple inputs and does not model double rounding. -/
def floatStr (m e : Int) : List Nat :=
  let sign : List Nat := if m < 0 then [45] else []
  match e with
  | .ofNat k => sign ++ natStr (m.natAbs * 10 ^ k) ++ cp (".0")
  | .negSucc k0 =>
    let k := k0 + 1
    let ds := natStr m.natAbs
    let ds := if ds.length ≤ k then List.replicate (k + 1 - ds.length) 48 ++ ds else ds
    sign ++ ds.take (ds.length - k) ++ [46] ++ ds.drop (ds.length - k)

/-- One character inside a Python string `repr`, given the chosen quote. -/
def strReprChar (q c : Nat) : List Nat :=
  if c = 92 then [92, 92]
  else if c = q then [92, q]
  else if c = 10 then [92, 110]
  else if c = 13 then [92, 114]
  else if c = 9 then [92, 116]
  else if c < 32 || c = 127 then [92, 120, hexDigit (c / 16), hexDigit (c % 16)]
  else [c]

/-- Python `repr` of a string: single quotes unless the string holds a
single quote and no double quote; ASCII control characters escaped.
(CPython additionally escapes non-printable characters above ASCII by
Unicode category, which is not modelled.) -/
def strRepr (s : List Nat) : List Nat :=
  let q : Nat := if s.contains 39 && !s.contains 34 then 34 else 39
  q :: (s.map (strReprChar q)).flatten ++ [q]

mutual

/-- Python `repr` of a JSON-derived value.  (A real `dict` cannot hold the
duplicate keys a `JObj` may carry; they are shown in parse order here.) -/
def pyRepr : JValue → List Nat
  | .jnull => cp ("None")
  | .jbool true => cp ("True")
  | .jbool false => cp ("False")
  | .jint n => intStr n
  | .jfloat m e => floatStr m e
  | .jnan => cp ("nan")
  | .jinf false => cp ("inf")
  | .jinf true => cp ("-inf")
  | .jstr s => strRepr s
  | .jarr a => 91 :: pyReprArr a ++ [93]
  | .jobj o => 123 :: pyReprObj o ++ [125]

def pyReprArr : JArr → List Nat
  | .nil => []
  | .cons v .nil => pyRepr v
  | .cons v (.cons w tl) => pyRepr v ++ cp (", ") ++ pyReprArr (.cons w tl)

def pyReprObj : JObj → List Nat
  | .nil => []
  | .cons k v .nil => strRepr k ++ cp (": ") ++ pyRepr v
  | .cons k v (.cons k2 v2 tl) =>
    strRepr k ++ cp (": ") ++ pyRepr v ++ cp (", ") ++ pyReprObj (.cons k2 v2 tl)

end

/-- Python `str()`, as f-string interpolation applies it: the identity on
strings, `repr`-like on everything else. -/
def pyStr : JValue → List Nat
  | .jstr s => s
  | v => pyRepr v

example : jsonLoads (cp ("[DONE]")) = none := rfl

example : jsonLoads (cp ("\x7bnot json")) = none := rfl

example : jsonLoads (cp (" null ")) = some .jnull := rfl

example :
    jsonLoads (cp ("\x7b\"a\": [1, true], \"b\": \"x\"\x7d")) =
      some (.jobj (.cons (cp ("a")) (.jarr (.cons (.jint 1) (.cons (.jbool true) .nil)))
        (.cons (cp ("b")) (.jstr (cp ("x"))) .nil))) := rfl

example : jsonLoads (cp ("0123")) = none := rfl

example : jsonLoads (cp ("-1.5e2")) = some (.jfloat (-15) 1) := rfl

example : natStr 429 = cp ("429") := by decide

example : pyStr (.jint (-7)) = cp ("-7") := by decide

/-! ## The streaming decoder (`_call_deepseek_api`, lines 114–211) -/

/-- Lines 170–182: the handling of a successfully decoded event object.
Returns the fragment to emit, if any; exceptions (a non-dict event, a
non-sized `choices`, …) propagate to the outer `except Exception` handler.
The `finish_reason` lookup is re-evaluated as in the source; it is observed
but produces no emission. -/
def deltaContent (dataObj : JValue) : Except PyExn (Option JValue) := do
  let choicesGet ← pyDictGet dataObj (cp ("choices"))
  if truthy choicesGet then
    let cv1 ← pySubscr dataObj (cp ("choices"))
    let n ← pyLen cv1
    if 0 < n then
      let cv2 ← pySubscr dataObj (cp ("choices"))
      let c0 ← pyIndexZero cv2
      let delta ← pyDictGetD c0 (cp ("delta")) (.jobj .nil)
      let res ←
        if truthy delta then do
          let hasContent ← pyContains (cp ("content")) delta
          if hasContent then do
            let content ← pySubscr delta (cp ("content"))
            pure (if truthy content then some content else none)
          else pure none
        else pure (none : Option JValue)
      let cv3 ← pySubscr dataObj (cp ("choices"))
      let c0b ← pyIndexZero cv3
      let _ ← pyDictGet c0b (cp ("finish_reason"))
      pure res
    else pure none
  else pure none

/-- Lines 157–187: processing of one complete line.  Strip it; skip blank
lines and lines without the `data: ` marker; strip the six-character
marker; skip the `[DONE]` sentinel; JSON-decode the payload, a failure
being logged and skipped (`continue`); otherwise extract the content
fragment. -/
def lineOut (line : List Nat) : Except PyExn (Option JValue) :=
  let l := pyStrip line
  if l.isEmpty then .ok none
  else if (cp ("data: ")).isPrefixOf l then
    let dataStr := l.drop 6
    if dataStr = cp ("[DONE]") then .ok none
    else
      match jsonLoads dataStr with
      | none => .ok none
      | some dataObj => deltaContent dataObj
  else .ok none

/-- Process a list of complete lines in order.  A line that raises reaches
the outer `except Exception` handler, which yields one diagnostic fragment;
the generator then stops, which the Boolean records. -/
def procLines : List (List Nat) → List JValue × Bool
  | [] => ([], false)
  | l :: ls =>
    match lineOut l with
    | .error e => ([.jstr (cp ("【未知错误】: ") ++ e.msg)], true)
    | .ok none => procLines ls
    | .ok (some frag) => (frag :: (procLines ls).1, (procLines ls).2)

/-- Lines 150–190: the streaming loop.  For each non-empty byte chunk:
decode it permissively onto the buffer, split on newlines, process every
segment except the last, and retain the last segment as the new buffer.
Returns the fragments, the final buffer, and whether a line aborted the
generator (in which case remaining chunks are never consumed). -/
def streamLoop : List (List Nat) → List Nat → List JValue × List Nat × Bool
  | [], buf => ([], buf, false)
  | c :: cs, buf =>
    if c.isEmpty then streamLoop cs buf
    else
      let buf2 := buf ++ pyDecodeIgnore c
      let segs := pySplitNl buf2
      let pl := procLines segs.dropLast
      if pl.2 then (pl.1, buf2, true)
      else
        let rest := streamLoop cs (segs.getLastD [])
        (pl.1 ++ rest.1, rest.2.1, rest.2.2)

/-- The fragments of the streaming branch on a list of body chunks. -/
def streamFrags (chunks : List (List Nat)) : List JValue := (streamLoop chunks []).1

/-- Lines 138–143: best-effort extraction of `error_json["error"]["message"]`
from a decoded error body; any exception lands in the bare `except: pass`,
keeping the default message. -/
def extractErrMsg (ej : JValue) : Except PyExn (Option JValue) := do
  let b1 ← pyContains (cp ("error")) ej
  if b1 then
    let ev ← pySubscr ej (cp ("error"))
    let b2 ← pyContains (cp ("message")) ev
    if b2 then
      let ev2 ← pySubscr ej (cp ("error"))
      let mv ← pySubscr ev2 (cp ("message"))
      pure (some mv)
    else pure none
  else pure none

/-- Lines 134–145: the message of the single error fragment for a
non-success HTTP status: the `error.message` field of a JSON error body
when present and extractable, the generic status-carrying message
otherwise. -/
def httpErrorMsg (status : Nat) (bodyText : List Nat) : List Nat :=
  let dflt := cp ("API错误 (HTTP ") ++ natStr status ++ cp (")")
  match jsonLoads bodyText with
  | none => dflt
  | some ej =>
    match extractErrMsg ej with
    | .error _ => dflt
    | .ok none => dflt
    | .ok (some mv) => pyStr mv

/-- Lines 193–201: the non-streaming branch after a successful
`response.json()`: extract `choices[0].message.content`, re-evaluating the
subscripts as the source does; exceptions propagate to the outer handler. -/
def nonStreamContent (result : JValue) : Except PyExn (Option JValue) := do
  let cg ← pyDictGet result (cp ("choices"))
  if truthy cg then
    let cv1 ← pySubscr result (cp ("choices"))
    let n ← pyLen cv1
    if 0 < n then
      let cv2 ← pySubscr result (cp ("choices"))
      let c0 ← pyIndexZero cv2
      let mg ← pyDictGet c0 (cp ("message"))
      if truthy mg then
        let cv3 ← pySubscr result (cp ("choices"))
        let c0b ← pyIndexZero cv3
        let msg ← pySubscr c0b (cp ("message"))
        let contentGet ← pyDictGet msg (cp ("content"))
        if truthy contentGet then
          let cv4 ← pySubscr result (cp ("choices"))
          let c0c ← pyIndexZero cv4
          let msg2 ← pySubscr c0c (cp ("message"))
          let content ← pySubscr msg2 (cp ("content"))
          pure (if truthy content then some content else none)
        else pure none
      else pure none
    else pure none
  else pure none

/-- The categories of exceptions the `try` around the network call
distinguishes (lines 203–211), each carrying its `str(e)` where one is
interpolated.  `aiohttp.ClientConnectorError` is caught before the broader
`aiohttp.ClientError`; the total-timeout expiry raises
`asyncio.TimeoutError`, which is neither. -/
inductive NetExn where
  | connError (msg : List Nat)
  | clientError (msg : List Nat)
  | timeoutError
  | otherError (msg : List Nat)

/-- The outcome of `session.post`: either a raised exception, or a response
with an HTTP status, a body as text (as `await response.text()` delivers
it) and a body as the byte chunks `response.content.iter_any()` yields.
The chunk list is the whole body: the model covers fully delivered
responses, exceptions being raised at the call itself. -/
inductive NetResult where
  | raised (e : NetExn)
  | resp (status : Nat) (bodyText : List Nat) (chunks : List (List Nat))

/-- A `{role, content}` chat message. -/
structure PyMessage where
  role : List Nat
  content : List Nat

/-- `_call_deepseek_api` (lines 114–211) as a function of the request
messages, the stream flag and the network outcome.  The messages only
shape the request payload, never the decoding of the response.  The
message of a JSON-decode failure inside the non-streaming
`response.json()` is position-dependent in CPython and abbreviated here. -/
def callDeepseekApi (messages : List PyMessage) (stream : Bool) (net : NetResult) :
    List JValue :=
  match net with
  | .raised e =>
    match e with
    | .connError m =>
      [.jstr (cp ("【网络错误】无法连接到DeepSeek API: ") ++ m),
       .jstr (cp ("请检查：\n1. 网络连接是否正常\n2. API地址是否正确\n3. 防火墙设置"))]
    | .clientError m => [.jstr (cp ("【HTTP错误】请求失败: ") ++ m)]
    | .timeoutError => [.jstr (cp ("【超时错误】API请求超时，请稍后重试"))]
    | .otherError m => [.jstr (cp ("【未知错误】: ") ++ m)]
  | .resp status bodyText chunks =>
    let _ := messages
    if status ≠ 200 then [.jstr (cp ("【系统错误】") ++ httpErrorMsg status bodyText)]
    else if stream then streamFrags chunks
    else
      match jsonLoads bodyText with
      | none => [.jstr (cp ("【未知错误】: ") ++ cp ("Expecting value"))]
      | some result =>
        match nonStreamContent result with
        | .error e => [.jstr (cp ("【未知错误】: ") ++ e.msg)]
        | .ok none => []
        | .ok (some content) => [content]

/-! ## The façade (`translate_*`, lines 213–251)

The two persona system prompts are transcribed from lines 85–105.  The two
user-content templates come from `app/prompts.py`, which is not among the
sources; modelled from the spec: they are external parameterized text
templates, one per direction, taking the raw input text to the
user-message content, so they appear as function parameters here. -/

/-- System prompt for the pm-to-dev direction (lines 85–93). -/
def pmToDevSystem : List Nat :=
  cp ("你是一位资深技术架构师，擅长将业务需求转化为技术方案。\n            \n请确保回复包含以下方面：\n1. **技术实现方案** - 具体技术栈、算法、架构设计\n2. **数据来源与处理** - 数据采集、清洗、存储方案\n3. **性能要求** - 响应时间、并发量、SLA指标\n4. **工作量评估** - 人天估算、技术风险点\n\n使用##标题格式进行结构化回复，让开发人员一目了然。")

/-- System prompt for the dev-to-pm direction (lines 98–105). -/
def devToPmSystem : List Nat :=
  cp ("你是一位资深产品经理，擅长将技术方案转化为业务价值。\n            \n请确保回复包含以下方面：\n1. **用户体验影响** - 对用户使用体验的具体改善\n2. **业务增长空间** - 能带来的用户增长、收入提升\n3. **商业价值** - 成本节省、效率提升、风险降低\n\n使用通俗易懂的语言，避免技术术语，让产品经理快速理解价值。")

/-- `_create_messages` (lines 82–112): the `[system, user]` pair for a
direction, the user content produced by the direction's template. -/
def createMessages (pmTpl devTpl : List Nat → List Nat) (text direction : List Nat) :
    List PyMessage :=
  if direction = cp ("pm-to-dev") then
    [⟨cp ("system"), pmToDevSystem⟩, ⟨cp ("user"), pmTpl text⟩]
  else
    [⟨cp ("system"), devToPmSystem⟩, ⟨cp ("user"), devTpl text⟩]

/-- The guard `not text or not text.strip()` of lines 215 and 225. -/
def emptyInput (text : List Nat) : Bool := text.isEmpty || (pyStrip text).isEmpty

/-- `translate_pm_to_dev_stream` (lines 213–221). -/
def translatePmToDevStream (pmTpl devTpl : List Nat → List Nat) (text : List Nat)
    (net : NetResult) : List JValue :=
  if emptyInput text then [.jstr (cp ("请输入有效的产品需求"))]
  else callDeepseekApi (createMessages pmTpl devTpl text (cp ("pm-to-dev"))) true net

/-- `translate_dev_to_pm_stream` (lines 223–231). -/
def translateDevToPmStream (pmTpl devTpl : List Nat → List Nat) (text : List Nat)
    (net : NetResult) : List JValue :=
  if emptyInput text then [.jstr (cp ("请输入有效的技术方案"))]
  else callDeepseekApi (createMessages pmTpl devTpl text (cp ("dev-to-pm"))) true net

/-- `"".join(content_parts)`: concatenates string parts in order, raising
`TypeError` at the first non-string part. -/
def pyJoinFrom : Nat → List JValue → Except PyExn (List Nat)
  | _, [] => .ok []
  | i, .jstr s :: vs => (pyJoinFrom (i + 1) vs).map (fun r => s ++ r)
  | i, v :: _ =>
    .error ⟨cp ("sequence item ") ++ natStr i ++ cp (": expected str instance, ") ++
      pyTypeName v ++ cp (" found")⟩

def pyJoin (parts : List JValue) : Except PyExn (List Nat) := pyJoinFrom 0 parts

/-- `translate_pm_to_dev` with `stream=False` (lines 233–241): collect the
fragments of the streaming generator and join them.  (With `stream=True`
the method simply returns the generator itself.) -/
def translatePmToDev (pmTpl devTpl : List Nat → List Nat) (text : List Nat)
    (net : NetResult) : Except PyExn (List Nat) :=
  pyJoin (translatePmToDevStream pmTpl devTpl text net)

/-- `translate_dev_to_pm` with `stream=False` (lines 243–251). -/
def translateDevToPm (pmTpl devTpl : List Nat → List Nat) (text : List Nat)
    (net : NetResult) : Except PyExn (List Nat) :=
  pyJoin (translateDevToPmStream pmTpl devTpl text net)

/-! ## The transport session (`get_session`/`close`, lines 42–62) -/

/-- The aiohttp client session as the translator observes it: an identity
and the closed flag. -/
structure Session where
  sid : Nat
  closed : Bool
deriving DecidableEq

/-- The translator's session state: `self._session` plus a counter giving
fresh identities to newly constructed sessions. -/
structure TransState where
  session : Option Session
  nextSid : Nat
deriving DecidableEq

/-- `get_session` (lines 42–56): reuse the session unless it is absent or
closed, in which case construct a fresh one and store it. -/
def getSession (st : TransState) : Session × TransState :=
  match st.session with
  | some s =>
    if s.closed then
      (⟨st.nextSid, false⟩, ⟨some ⟨st.nextSid, false⟩, st.nextSid + 1⟩)
    else (s, st)
  | none => (⟨st.nextSid, false⟩, ⟨some ⟨st.nextSid, false⟩, st.nextSid + 1⟩)

/-- `close` (lines 58–62): when a session exists and is not closed, close
it and drop the reference; otherwise do nothing. -/
def closeSession (st : TransState) : TransState :=
  match st.session with
  | some s => if s.closed then st else ⟨none, st.nextSid⟩
  | none => st

/-- Sessions held by a state were constructed before the counter's value. -/
def sidInvariant (st : TransState) : Prop :=
  ∀ s, st.session = some s → s.sid < st.nextSid

/-- A well-formed two-event SSE body whose content fragment is the
two-byte-encoded character `é`, for probing chunk-boundary behaviour. -/
def sseAccentBody : List Nat :=
  utf8Enc (cp ("data: \x7b\"choices\":[\x7b\"delta\":\x7b\"content\":\"é\"\x7d\x7d]\x7d\ndata: [DONE]\n"))

example : streamFrags [sseAccentBody] = [.jstr (cp ("é"))] := rfl

example : streamFrags [sseAccentBody.take 40, sseAccentBody.drop 40] = [] := rfl

example :
    streamFrags
      [utf8Enc (cp ("data: \x7b\"choices\":[\x7b\"delta\":\x7b\"content\":\"X\"\x7d\x7d]\x7d\ndata: [DONE]\n"))] =
    [.jstr (cp ("X"))] := rfl

example :
    httpErrorMsg 429 (cp ("\x7b\"error\":\x7b\"message\":\"rate limited\"\x7d\x7d")) =
      cp ("rate limited") := rfl

example :
    procLines
      [cp ("data: \x7bnot json"),
       cp ("data: \x7b\"choices\":[\x7b\"delta\":\x7b\"content\":\"X\"\x7d\x7d]\x7d")] =
    ([.jstr (cp ("X"))], false) := rfl

example :
    procLines [cp ("data: 42")] =
      ([.jstr (cp ("【未知错误】: ") ++ sq (cp ("int")) ++
        cp (" object has no attribute ") ++ sq (cp ("get")))], true) := rfl

/-! ## Properties of splitting -/

theorem pySplitNl_ne_nil (s : List Nat) : pySplitNl s ≠ [] := by
  cases s with
  | nil => simp [pySplitNl]
  | cons c cs =>
    simp only [pySplitNl]
    split
    · simp
    · split <;> simp

theorem getLastD_cons_of_ne_nil {α : Type} (a d : α) (l : List α) (h : l ≠ []) :
    (a :: l).getLastD d = l.getLastD d := by
  cases l with
  | nil => exact absurd rfl h
  | cons b t => rfl

theorem completeLines_nil : completeLines [] = [] := rfl

theorem lastSeg_nil : lastSeg [] = [] := rfl

theorem completeLines_cons_nl (s : List Nat) :
    completeLines (10 :: s) = [] :: completeLines s := by
  obtain ⟨h, t, hs⟩ : ∃ h t, pySplitNl s = h :: t := by
    cases hs : pySplitNl s with
    | nil => exact absurd hs (pySplitNl_ne_nil s)
    | cons h t => exact ⟨h, t, rfl⟩
  simp [completeLines, pySplitNl, hs]

theorem lastSeg_cons_nl (s : List Nat) : lastSeg (10 :: s) = lastSeg s := by
  simp only [lastSeg, pySplitNl, if_pos rfl]
  exact getLastD_cons_of_ne_nil _ _ _ (pySplitNl_ne_nil s)

theorem completeLines_cons (c : Nat) (s : List Nat) (hc : c ≠ 10) :
    completeLines (c :: s) =
      match completeLines s with
      | [] => []
      | h :: t => (c :: h) :: t := by
  obtain ⟨h, t, hs⟩ : ∃ h t, pySplitNl s = h :: t := by
    cases hs : pySplitNl s with
    | nil => exact absurd hs (pySplitNl_ne_nil s)
    | cons h t => exact ⟨h, t, rfl⟩
  cases t with
  | nil => simp [completeLines, pySplitNl, if_neg hc, hs]
  | cons t1 t2 => simp [completeLines, pySplitNl, if_neg hc, hs]

theorem lastSeg_cons (c : Nat) (s : List Nat) (hc : c ≠ 10) :
    lastSeg (c :: s) = if completeLines s = [] then c :: lastSeg s else lastSeg s := by
  obtain ⟨h, t, hs⟩ : ∃ h t, pySplitNl s = h :: t := by
    cases hs : pySplitNl s with
    | nil => exact absurd hs (pySplitNl_ne_nil s)
    | cons h t => exact ⟨h, t, rfl⟩
  cases t with
  | nil => simp [lastSeg, completeLines, pySplitNl, if_neg hc, hs]
  | cons t1 t2 => simp [lastSeg, completeLines, pySplitNl, if_neg hc, hs, List.getLastD]

theorem completeLines_noNl (s : List Nat) (h : (10 : Nat) ∉ s) : completeLines s = [] := by
  induction s with
  | nil => rfl
  | cons c cs ih =>
    have hc : c ≠ 10 := fun hc => h (by simp [hc])
    rw [completeLines_cons c cs hc, ih (fun hm => h (by simp [hm]))]

theorem lastSeg_noNl (s : List Nat) (h : (10 : Nat) ∉ s) : lastSeg s = s := by
  induction s with
  | nil => rfl
  | cons c cs ih =>
    have hc : c ≠ 10 := fun hc => h (by simp [hc])
    have hcs : (10 : Nat) ∉ cs := fun hm => h (by simp [hm])
    rw [lastSeg_cons c cs hc, if_pos (completeLines_noNl cs hcs), ih hcs]

theorem nl_not_mem_lastSeg (s : List Nat) : (10 : Nat) ∉ lastSeg s := by
  induction s with
  | nil => simp [lastSeg_nil]
  | cons c cs ih =>
    by_cases hc : c = 10
    · subst hc; rw [lastSeg_cons_nl]; exact ih
    · rw [lastSeg_cons c cs hc]
      split
      · intro hm
        rcases List.mem_cons.mp hm with h1 | h2
        · exact hc h1.symm
        · exact ih h2
      · exact ih

theorem completeLines_append (x y : List Nat) :
    completeLines (x ++ y) = completeLines x ++ completeLines (lastSeg x ++ y) := by
  induction x with
  | nil => simp [completeLines_nil, lastSeg_nil]
  | cons c x' ih =>
    by_cases hc : c = 10
    · subst hc
      rw [List.cons_append, completeLines_cons_nl, completeLines_cons_nl, lastSeg_cons_nl, ih,
        List.cons_append]
    · rw [List.cons_append, completeLines_cons c _ hc, completeLines_cons c x' hc,
        lastSeg_cons c x' hc, ih]
      cases hx : completeLines x' with
      | nil => simp [completeLines_cons c (lastSeg x' ++ y) hc]
      | cons h t => simp

theorem lastSeg_append (x y : List Nat) :
    lastSeg (x ++ y) = lastSeg (lastSeg x ++ y) := by
  induction x with
  | nil => simp [lastSeg_nil]
  | cons c x' ih =>
    by_cases hc : c = 10
    · subst hc
      rw [List.cons_append, lastSeg_cons_nl, lastSeg_cons_nl, ih]
    · rw [List.cons_append, lastSeg_cons c _ hc, lastSeg_cons c x' hc,
        completeLines_append x' y]
      cases hx : completeLines x' with
      | nil => simp [lastSeg_cons c (lastSeg x' ++ y) hc, ih]
      | cons h t => simp [ih]

/-! ## Properties of line processing and of the streaming loop -/

theorem procLines_append (A B : List (List Nat)) :
    procLines (A ++ B) =
      if (procLines A).2 then procLines A
      else ((procLines A).1 ++ (procLines B).1, (procLines B).2) := by
  induction A with
  | nil => simp [procLines]
  | cons l ls ih =>
    rw [List.cons_append]
    cases hl : lineOut l with
    | error e => simp [procLines, hl]
    | ok o =>
      cases o with
      | none => simp only [procLines, hl]; exact ih
      | some f =>
        simp only [procLines, hl, ih]
        cases hab : (procLines ls).2 <;> simp [hab]

/-- The text accumulated by the loop: the concatenation of the per-chunk
permissive decodings. -/
def accText (chunks : List (List Nat)) : List Nat := (chunks.map pyDecodeIgnore).flatten

theorem accText_nil : accText [] = [] := rfl

theorem accText_cons (c : List Nat) (cs : List (List Nat)) :
    accText (c :: cs) = pyDecodeIgnore c ++ accText cs := rfl

theorem pyDecodeIgnore_nil : pyDecodeIgnore [] = [] := rfl

theorem streamLoop_frags (chunks : List (List Nat)) :
    ∀ buf, (10 : Nat) ∉ buf →
      (streamLoop chunks buf).1 = (procLines (completeLines (buf ++ accText chunks))).1 := by
  induction chunks with
  | nil =>
    intro buf hb
    simp [streamLoop, accText_nil, completeLines_noNl buf hb, procLines]
  | cons c cs ih =>
    intro buf hb
    by_cases hce : c.isEmpty
    · have hc : c = [] := List.isEmpty_iff.mp hce
      subst hc
      simp only [streamLoop, List.isEmpty_nil, if_true, accText_cons, pyDecodeIgnore_nil,
        List.nil_append]
      exact ih buf hb
    · simp only [streamLoop, hce, Bool.false_eq_true, if_false]
      have hassoc : buf ++ accText (c :: cs) = (buf ++ pyDecodeIgnore c) ++ accText cs := by
        rw [accText_cons, List.append_assoc]
      rw [hassoc, completeLines_append, procLines_append]
      show (if (procLines (completeLines (buf ++ pyDecodeIgnore c))).2 = true then _ else _ :
        List JValue × List Nat × Bool).1 = _
      cases hab : (procLines (completeLines (buf ++ pyDecodeIgnore c))).2 with
      | true =>
        simp only [hab, if_pos rfl]
        rfl
      | false =>
        simp only [hab, Bool.false_eq_true, if_false]
        show (procLines (completeLines (buf ++ pyDecodeIgnore c))).1 ++
            (streamLoop cs (lastSeg (buf ++ pyDecodeIgnore c))).1 = _
        rw [ih (lastSeg (buf ++ pyDecodeIgnore c)) (nl_not_mem_lastSeg _)]

theorem streamLoop_noAbort (chunks : List (List Nat)) :
    ∀ buf, (10 : Nat) ∉ buf →
      (procLines (completeLines (buf ++ accText chunks))).2 = false →
      streamLoop chunks buf =
        ((procLines (completeLines (buf ++ accText chunks))).1,
          lastSeg (buf ++ accText chunks), false) := by
  induction chunks with
  | nil =>
    intro buf hb _
    simp [streamLoop, accText_nil, completeLines_noNl buf hb, procLines,
      lastSeg_noNl buf hb]
  | cons c cs ih =>
    intro buf hb hna
    by_cases hce : c.isEmpty
    · have hc : c = [] := List.isEmpty_iff.mp hce
      subst hc
      simp only [streamLoop, List.isEmpty_nil, if_true, accText_cons, pyDecodeIgnore_nil,
        List.nil_append] at hna ⊢
      exact ih buf hb hna
    · have hassoc : buf ++ accText (c :: cs) = (buf ++ pyDecodeIgnore c) ++ accText cs := by
        rw [accText_cons, List.append_assoc]
      have hsplit := hna
      rw [hassoc, completeLines_append, procLines_append] at hsplit
      have hab : (procLines (completeLines (buf ++ pyDecodeIgnore c))).2 = false := by
        by_contra hcon
        rw [if_pos (by simpa using hcon)] at hsplit
        exact hcon (by simp [hsplit])
      rw [if_neg (by simp [hab])] at hsplit
      have htail : (procLines (completeLines
          (lastSeg (buf ++ pyDecodeIgnore c) ++ accText cs))).2 = false := by
        simpa using hsplit
      rw [hassoc, completeLines_append, procLines_append, if_neg (by simp [hab]),
        lastSeg_append (buf ++ pyDecodeIgnore c) (accText cs)]
      simp only [streamLoop, hce, Bool.false_eq_true, if_false]
      show (if (procLines (completeLines (buf ++ pyDecodeIgnore c))).2 = true then _ else _) = _
      rw [hab]
      simp only [Bool.false_eq_true, if_false]
      show ((procLines (completeLines (buf ++ pyDecodeIgnore c))).1 ++
          (streamLoop cs (lastSeg (buf ++ pyDecodeIgnore c))).1,
          (streamLoop cs (lastSeg (buf ++ pyDecodeIgnore c))).2.1,
          (streamLoop cs (lastSeg (buf ++ pyDecodeIgnore c))).2.2) = _
      rw [ih (lastSeg (buf ++ pyDecodeIgnore c)) (nl_not_mem_lastSeg _) htail]

/-! ## Properties of decoding and joining -/

theorem utf8Step_err (st : Utf8State) (b : Nat) :
    utf8Step { st with err := true } b = { utf8Step st b with err := true } := by
  simp only [utf8Step, utf8Lead]
  split_ifs <;> rfl

theorem foldl_utf8Step_err (bs : List Nat) :
    ∀ st, List.foldl utf8Step { st with err := true } bs =
      { List.foldl utf8Step st bs with err := true } := by
  induction bs with
  | nil => intro st; rfl
  | cons b bs ih =>
    intro st
    rw [List.foldl_cons, List.foldl_cons, utf8Step_err, ih]

theorem utf8Step_need0 (st : Utf8State) (b : Nat) (h0 : st.need = 0) :
    utf8Step st b = utf8Lead st b := by
  unfold utf8Step
  rw [if_pos h0]

/-- Observational equivalence of decoder states: the fields that can still
influence the output agree.  The `err` flag is never read, and between
characters (`need = 0`) the `acc`/`lo`/`hi` fields are dead. -/
def obsR (s t : Utf8State) : Prop :=
  s.out = t.out ∧ s.need = t.need ∧
  (s.need ≠ 0 → s.acc = t.acc ∧ s.lo = t.lo ∧ s.hi = t.hi)

theorem utf8Lead_obsR (s t : Utf8State) (ho : s.out = t.out) (b : Nat) :
    obsR (utf8Lead s b) (utf8Lead t b) := by
  unfold utf8Lead
  split_ifs <;>
    first
      | exact ⟨by rw [ho], rfl, fun hc => absurd rfl hc⟩
      | exact ⟨ho, rfl, fun _ => ⟨rfl, rfl, rfl⟩⟩

theorem utf8Step_obsR (s t : Utf8State) (h : obsR s t) (b : Nat) :
    obsR (utf8Step s b) (utf8Step t b) := by
  obtain ⟨ho, hn, hmid⟩ := h
  unfold utf8Step
  by_cases h0 : s.need = 0
  · rw [if_pos h0, if_pos (show t.need = 0 by omega)]
    exact utf8Lead_obsR s t ho b
  · obtain ⟨ha, hl, hh⟩ := hmid h0
    rw [if_neg h0, if_neg (show ¬ t.need = 0 by omega), hl, hh, ha, hn]
    split_ifs
    · exact ⟨by rw [ho], rfl, fun hc => absurd rfl hc⟩
    · exact ⟨ho, rfl, fun _ => ⟨rfl, rfl, rfl⟩⟩
    · exact utf8Lead_obsR ⟨s.out, 0, t.acc, t.lo, t.hi, true⟩
        ⟨t.out, 0, t.acc, t.lo, t.hi, true⟩ ho b

theorem foldl_utf8Step_obsR (bs : List Nat) :
    ∀ s t, obsR s t →
      obsR (List.foldl utf8Step s bs) (List.foldl utf8Step t bs) := by
  induction bs with
  | nil => intro s t h; exact h
  | cons b bs ih =>
    intro s t h
    rw [List.foldl_cons, List.foldl_cons]
    exact ih _ _ (utf8Step_obsR s t h b)

theorem utf8Lead_invalid (st : Utf8State) (b : Nat) (h : isInvalidStart b = true) :
    utf8Lead st b = { st with need := 0, err := true } := by
  have hb : (128 ≤ b ∧ b ≤ 193) ∨ 245 ≤ b := by
    simpa [isInvalidStart, Bool.or_eq_true, Bool.and_eq_true, decide_eq_true_eq] using h
  have h1 : ¬ b < 128 := by omega
  have h2 : ¬ (194 ≤ b ∧ b ≤ 223) := by omega
  have h3 : ¬ (224 ≤ b ∧ b ≤ 239) := by omega
  have h4 : ¬ (240 ≤ b ∧ b ≤ 244) := by omega
  simp [utf8Lead, h1, h2, h3, h4]

theorem utf8Step_lead2 (st : Utf8State) (lead : Nat) (h0 : st.need = 0)
    (h1 : 194 ≤ lead) (h2 : lead ≤ 223) :
    utf8Step st lead = { st with need := 1, acc := lead - 192, lo := 128, hi := 191 } := by
  unfold utf8Step
  rw [if_pos h0]
  unfold utf8Lead
  rw [if_neg (by omega),
    if_pos (by simp only [Bool.and_eq_true, decide_eq_true_eq]; omega)]

theorem utf8Step_lead3 (st : Utf8State) (lead : Nat) (h0 : st.need = 0)
    (h1 : 224 ≤ lead) (h2 : lead ≤ 239) :
    utf8Step st lead = { st with
      need := 2
      acc := lead - 224
      lo := if lead = 224 then 160 else 128
      hi := if lead = 237 then 159 else 191 } := by
  unfold utf8Step
  rw [if_pos h0]
  unfold utf8Lead
  rw [if_neg (by omega),
    if_neg (by simp only [Bool.and_eq_true, decide_eq_true_eq]; omega),
    if_pos (by simp only [Bool.and_eq_true, decide_eq_true_eq]; omega)]

theorem utf8Step_lead4 (st : Utf8State) (lead : Nat) (h0 : st.need = 0)
    (h1 : 240 ≤ lead) (h2 : lead ≤ 244) :
    utf8Step st lead = { st with
      need := 3
      acc := lead - 240
      lo := if lead = 240 then 144 else 128
      hi := if lead = 244 then 143 else 191 } := by
  unfold utf8Step
  rw [if_pos h0]
  unfold utf8Lead
  rw [if_neg (by omega),
    if_neg (by simp only [Bool.and_eq_true, decide_eq_true_eq]; omega),
    if_neg (by simp only [Bool.and_eq_true, decide_eq_true_eq]; omega),
    if_pos (by simp only [Bool.and_eq_true, decide_eq_true_eq]; omega)]

theorem contLo2 (lead : Nat) (h2 : lead ≤ 223) : contLo lead = 128 := by
  unfold contLo
  rw [if_neg (by omega), if_neg (by omega)]

theorem contHi2 (lead : Nat) (h2 : lead ≤ 223) : contHi lead = 191 := by
  unfold contHi
  rw [if_neg (by omega), if_neg (by omega)]

theorem contLo3 (lead : Nat) (h2 : lead ≤ 239) :
    contLo lead = if lead = 224 then 160 else 128 := by
  unfold contLo
  by_cases he : lead = 224
  · simp [he]
  · simp [he, show ¬ lead = 240 by omega]

theorem contHi3 (lead : Nat) (h2 : lead ≤ 239) :
    contHi lead = if lead = 237 then 159 else 191 := by
  unfold contHi
  by_cases he : lead = 237
  · simp [he]
  · simp [he, show ¬ lead = 244 by omega]

theorem contLo4 (lead : Nat) (h1 : 240 ≤ lead) :
    contLo lead = if lead = 240 then 144 else 128 := by
  unfold contLo
  rw [if_neg (by omega)]

theorem contHi4 (lead : Nat) (h1 : 240 ≤ lead) :
    contHi lead = if lead = 244 then 143 else 191 := by
  unfold contHi
  rw [if_neg (by omega)]

/-- Processing any multi-byte lead from a between-characters state emits
nothing, moves mid-sequence, and arms exactly the `contLo`/`contHi` range
for the next byte. -/
theorem utf8Step_lead_facts (st : Utf8State) (lead : Nat) (h0 : st.need = 0)
    (h1 : 194 ≤ lead) (h2 : lead ≤ 244) :
    (utf8Step st lead).out = st.out ∧ (utf8Step st lead).need ≠ 0 ∧
    (utf8Step st lead).lo = contLo lead ∧ (utf8Step st lead).hi = contHi lead := by
  by_cases hc2 : lead ≤ 223
  · rw [utf8Step_lead2 st lead h0 h1 hc2]
    exact ⟨rfl, by show (1 : Nat) ≠ 0; decide, (contLo2 lead hc2).symm,
      (contHi2 lead hc2).symm⟩
  · by_cases hc3 : lead ≤ 239
    · rw [utf8Step_lead3 st lead h0 (by omega) hc3]
      exact ⟨rfl, by show (2 : Nat) ≠ 0; decide, (contLo3 lead hc3).symm,
        (contHi3 lead hc3).symm⟩
    · rw [utf8Step_lead4 st lead h0 (by omega) h2]
      exact ⟨rfl, by show (3 : Nat) ≠ 0; decide, (contLo4 lead (by omega)).symm,
        (contHi4 lead (by omega)).symm⟩

theorem utf8Step_lead_need2 (st : Utf8State) (lead : Nat) (h0 : st.need = 0)
    (h1 : 224 ≤ lead) (h2 : lead ≤ 244) : 2 ≤ (utf8Step st lead).need := by
  by_cases hc : lead ≤ 239
  · rw [utf8Step_lead3 st lead h0 h1 hc]
  · rw [utf8Step_lead4 st lead h0 (by omega) h2]
    show (2 : Nat) ≤ 3
    decide

/-- A valid continuation byte that does not yet complete its sequence:
nothing is emitted and one fewer byte is expected. -/
theorem utf8Step_cont (s : Utf8State) (b : Nat) (h2 : 2 ≤ s.need)
    (hl : s.lo ≤ b) (hh : b ≤ s.hi) :
    utf8Step s b =
      { s with acc := s.acc * 64 + (b - 128), need := s.need - 1, lo := 128, hi := 191 } := by
  have hn0 : ¬ s.need = 0 := by omega
  have hn1 : ¬ s.need = 1 := by omega
  have hr : (decide (s.lo ≤ b) && decide (b ≤ s.hi)) = true := by
    simp only [Bool.and_eq_true, decide_eq_true_eq]
    exact ⟨hl, hh⟩
  simp only [utf8Step, hn0, if_false, hr, if_true, hn1]

/-- An out-of-range byte mid-sequence abandons the pending partial
sequence: the decoder behaves exactly as if it were between characters
(with the error recorded), reconsidering the byte as a fresh start. -/
theorem utf8Step_abandon (s : Utf8State) (b : Nat) (hne : s.need ≠ 0)
    (hcont : ¬ (s.lo ≤ b ∧ b ≤ s.hi)) :
    utf8Step s b = utf8Step { s with need := 0, err := true } b := by
  conv_lhs => unfold utf8Step
  conv_rhs => unfold utf8Step
  rw [if_neg hne,
    if_neg (show ¬ (decide (s.lo ≤ b) && decide (b ≤ s.hi)) = true by
      simp only [Bool.and_eq_true, decide_eq_true_eq]; exact hcont),
    if_pos rfl]

/-- A run of bytes that can start nothing leaves the output untouched. -/
theorem foldl_invalid_out (bs : List Nat) :
    ∀ st, st.need = 0 → bs.all isInvalidStart = true →
      (List.foldl utf8Step st bs).out = st.out := by
  induction bs with
  | nil => intro st _ _; rfl
  | cons b bs ih =>
    intro st h0 hall
    rw [List.all_cons, Bool.and_eq_true] at hall
    rw [List.foldl_cons]
    have hstep : utf8Step st b = { st with need := 0, err := true } := by
      unfold utf8Step
      rw [if_pos h0]
      exact utf8Lead_invalid st b hall.1
    rw [hstep]
    exact ih _ rfl hall.2

/-- A truncated trailing sequence leaves the output untouched. -/
theorem foldl_truncated_out (st : Utf8State) (tl : List Nat) (h0 : st.need = 0)
    (htr : isTruncatedSeq tl = true) : (List.foldl utf8Step st tl).out = st.out := by
  rcases tl with _ | ⟨b, _ | ⟨c1, _ | ⟨c2, _ | ⟨d, rest⟩⟩⟩⟩
  · simp [isTruncatedSeq] at htr
  · simp only [isTruncatedSeq, Bool.and_eq_true, decide_eq_true_eq] at htr
    rw [List.foldl_cons, List.foldl_nil]
    exact (utf8Step_lead_facts st b h0 htr.1 htr.2).1
  · simp only [isTruncatedSeq, Bool.and_eq_true, decide_eq_true_eq] at htr
    obtain ⟨⟨hb1, hb2⟩, hc1, hc2⟩ := htr
    obtain ⟨ho, _, hlo, hhi⟩ := utf8Step_lead_facts st b h0 (by omega) hb2
    rw [List.foldl_cons, List.foldl_cons, List.foldl_nil,
      utf8Step_cont _ c1 (utf8Step_lead_need2 st b h0 hb1 hb2)
        (by rw [hlo]; exact hc1) (by rw [hhi]; exact hc2)]
    exact ho
  · simp only [isTruncatedSeq, Bool.and_eq_true, decide_eq_true_eq] at htr
    obtain ⟨⟨⟨hb1, hb2⟩, hc11, hc12⟩, hc21, hc22⟩ := htr
    obtain ⟨ho, _, hlo, hhi⟩ := utf8Step_lead_facts st b h0 (by omega) hb2
    have h3 : (utf8Step st b).need = 3 := by
      rw [utf8Step_lead4 st b h0 hb1 hb2]
    rw [List.foldl_cons, List.foldl_cons, List.foldl_cons, List.foldl_nil,
      utf8Step_cont _ c1 (by omega) (by rw [hlo]; exact hc11) (by rw [hhi]; exact hc12),
      utf8Step_cont _ c2 (show 2 ≤ (utf8Step st b).need - 1 by omega) hc21 hc22]
    exact ho
  · simp [isTruncatedSeq] at htr

/-- Whether a fragment is a Python string. -/
def isJStr : JValue → Bool
  | .jstr _ => true
  | _ => false

/-- The string content of a fragment (dummy on non-strings). -/
def strVal : JValue → List Nat
  | .jstr s => s
  | _ => []

/-- The in-order concatenation of a list of string fragments. -/
def concatStrs (l : List JValue) : List Nat := (l.map strVal).flatten

theorem pyJoinFrom_all_str (parts : List JValue) :
    ∀ i, parts.all isJStr = true → pyJoinFrom i parts = .ok (concatStrs parts) := by
  induction parts with
  | nil => intro i _; rfl
  | cons v vs ih =>
    intro i hall
    rw [List.all_cons, Bool.and_eq_true] at hall
    have hv : isJStr v = true := hall.1
    have hvs : vs.all isJStr = true := hall.2
    cases v with
    | jstr s =>
      simp only [pyJoinFrom, ih (i + 1) hvs, Except.map, concatStrs, List.map_cons,
        List.flatten_cons, strVal]
    | jnull => simp [isJStr] at hv
    | jbool b => simp [isJStr] at hv
    | jint n => simp [isJStr] at hv
    | jfloat m e => simp [isJStr] at hv
    | jnan => simp [isJStr] at hv
    | jinf n => simp [isJStr] at hv
    | jarr a => simp [isJStr] at hv
    | jobj o => simp [isJStr] at hv

theorem pyJoin_all_str (parts : List JValue) (h : parts.all isJStr = true) :
    pyJoin parts = .ok (concatStrs parts) := pyJoinFrom_all_str parts 0 h

/-- A well-formed `data: ` event line carrying the content `X`. -/
def xContentLine : List Nat :=
  cp ("data: \x7b\"choices\":[\x7b\"delta\":\x7b\"content\":\"X\"\x7d\x7d]\x7d")

/-! ## The claims -/

/-- C1: the claim that the streaming decoder emits the same fragments for
every chunk split of a well-formed SSE byte stream fails on the code.  On
`sseAccentBody` — a well-formed stream whose one event carries the content
`é` — delivering all bytes in one chunk emits the fragment `é`, while the
split of the same bytes at offset 40, between the two bytes of the UTF-8
encoding of `é`, emits nothing: `chunk.decode(utf8, errors=ignore)` drops
the halves of the split character at both chunk boundaries, so the decoded
content is empty and the empty string is not emitted. -/
theorem c1_chunk_split_sensitivity :
    streamFrags [sseAccentBody] = [.jstr (cp ("é"))] ∧
    streamFrags [sseAccentBody.take 40, sseAccentBody.drop 40] = [] ∧
    sseAccentBody.take 40 ++ sseAccentBody.drop 40 = sseAccentBody ∧
    (sseAccentBody.take 40).getLastD 0 = 195 ∧
    (sseAccentBody.drop 40).headD 0 = 169 :=
  ⟨rfl, rfl, List.take_append_drop 40 sseAccentBody, by decide, by decide⟩

/-- C2: as long as no line aborts the generator, after the loop has
consumed the chunks the retained buffer is exactly the last segment of the
newline split of the decoded input — the suffix after the last newline seen
— and the emitted fragments are exactly those of the newline-terminated
lines, so no fragment ever comes from a line whose terminating newline has
not yet been observed. -/
theorem c2_buffer_invariant (chunks : List (List Nat))
    (hna : (procLines (completeLines (accText chunks))).2 = false) :
    streamLoop chunks [] =
      ((procLines (completeLines (accText chunks))).1, lastSeg (accText chunks), false) := by
  have h := streamLoop_noAbort chunks [] (by simp) (by simpa using hna)
  simpa using h

theorem c2_buffer_invariant_witness :
    (procLines (completeLines
      (accText [utf8Enc (cp ("data: [DONE]\nda")), utf8Enc (cp ("ta: x"))]))).2 = false ∧
    streamLoop [utf8Enc (cp ("data: [DONE]\nda")), utf8Enc (cp ("ta: x"))] [] =
      ((procLines (completeLines
          (accText [utf8Enc (cp ("data: [DONE]\nda")), utf8Enc (cp ("ta: x"))]))).1,
        lastSeg (accText [utf8Enc (cp ("data: [DONE]\nda")), utf8Enc (cp ("ta: x"))]), false) ∧
    lastSeg (accText [utf8Enc (cp ("data: [DONE]\nda")), utf8Enc (cp ("ta: x"))]) =
      cp ("data: x") :=
  ⟨rfl, c2_buffer_invariant _ rfl, by decide⟩

/-- C3: a complete `data: `-prefixed line whose payload fails JSON decoding
produces no fragment and does not terminate processing: the lines around it
are processed exactly as if it were absent, so fragments emitted before it
are unaffected and well-formed lines after it still emit. -/
theorem c3_malformed_line_skipped (pre post : List (List Nat)) (bad : List Nat)
    (hdata : (cp ("data: ")).isPrefixOf (pyStrip bad) = true)
    (hfail : jsonLoads ((pyStrip bad).drop 6) = none) :
    procLines (pre ++ bad :: post) = procLines (pre ++ post) ∧
    (∀ chunks, completeLines (accText chunks) = pre ++ bad :: post →
      streamFrags chunks = (procLines (pre ++ post)).1) := by
  have hne : (pyStrip bad).isEmpty = false := by
    cases hstrip : pyStrip bad with
    | nil =>
      rw [hstrip] at hdata
      exact absurd hdata (by decide)
    | cons a l => rfl
  have hline : lineOut bad = .ok none := by
    simp only [lineOut]
    by_cases hdone : (pyStrip bad).drop 6 = cp ("[DONE]")
    · simp [hne, hdata, hdone]
    · simp [hne, hdata, hdone, hfail]
  have hmain : procLines (pre ++ bad :: post) = procLines (pre ++ post) := by
    rw [procLines_append, procLines_append]
    have hskip : procLines (bad :: post) = procLines post := by
      simp only [procLines, hline]
    rw [hskip]
  refine ⟨hmain, ?_⟩
  intro chunks hacc
  show (streamLoop chunks []).1 = _
  rw [streamLoop_frags chunks [] (by simp), List.nil_append, hacc, hmain]

theorem c3_malformed_line_skipped_witness :
    (cp ("data: ")).isPrefixOf (pyStrip (cp ("data: \x7bnot json"))) = true ∧
    jsonLoads ((pyStrip (cp ("data: \x7bnot json"))).drop 6) = none ∧
    procLines ([] ++ cp ("data: \x7bnot json") :: [xContentLine]) =
      procLines ([] ++ [xContentLine]) ∧
    completeLines (accText [utf8Enc (cp ("data: \x7bnot json") ++ [10] ++ xContentLine ++ [10])]) =
      [] ++ cp ("data: \x7bnot json") :: [xContentLine] ∧
    streamFrags [utf8Enc (cp ("data: \x7bnot json") ++ [10] ++ xContentLine ++ [10])] =
      (procLines ([] ++ [xContentLine])).1 ∧
    procLines [xContentLine] = ([.jstr (cp ("X"))], false) :=
  ⟨by decide, rfl,
    (c3_malformed_line_skipped [] [xContentLine] (cp ("data: \x7bnot json"))
      (by decide) rfl).1,
    by decide,
    (c3_malformed_line_skipped [] [xContentLine] (cp ("data: \x7bnot json"))
      (by decide) rfl).2
      [utf8Enc (cp ("data: \x7bnot json") ++ [10] ++ xContentLine ++ [10])] (by decide),
    rfl⟩

/-- C4: a non-success HTTP status yields exactly one fragment — the system
error diagnostic — after which the sequence ends, and the body is never
decoded as content; the diagnostic carries the extracted `error.message`
string when the body is JSON bearing one, and the generic status-carrying
message when the body is not JSON at all. -/
theorem c4_http_error (messages : List PyMessage) (stream : Bool) (status : Nat)
    (bodyText : List Nat) (chunks : List (List Nat)) (hne : status ≠ 200) :
    callDeepseekApi messages stream (.resp status bodyText chunks) =
      [.jstr (cp ("【系统错误】") ++ httpErrorMsg status bodyText)] ∧
    (∀ ej m, jsonLoads bodyText = some ej → extractErrMsg ej = .ok (some (.jstr m)) →
      httpErrorMsg status bodyText = m) ∧
    (jsonLoads bodyText = none →
      httpErrorMsg status bodyText = cp ("API错误 (HTTP ") ++ natStr status ++ cp (")")) ∧
    (∀ ej, jsonLoads bodyText = some ej → extractErrMsg ej = .ok none →
      httpErrorMsg status bodyText = cp ("API错误 (HTTP ") ++ natStr status ++ cp (")")) ∧
    (∀ ej ex, jsonLoads bodyText = some ej → extractErrMsg ej = .error ex →
      httpErrorMsg status bodyText = cp ("API错误 (HTTP ") ++ natStr status ++ cp (")")) := by
  refine ⟨?_, ?_, ?_, ?_, ?_⟩
  · simp [callDeepseekApi, hne]
  · intro ej m hj he
    simp [httpErrorMsg, hj, he, pyStr]
  · intro hj
    simp [httpErrorMsg, hj]
  · intro ej hj he
    simp [httpErrorMsg, hj, he]
  · intro ej ex hj he
    simp [httpErrorMsg, hj, he]

theorem c4_http_error_witness :
    (429 ≠ 200) ∧
    callDeepseekApi [] true
        (.resp 429 (cp ("\x7b\"error\":\x7b\"message\":\"rate limited\"\x7d\x7d")) []) =
      [.jstr (cp ("【系统错误】") ++
        httpErrorMsg 429 (cp ("\x7b\"error\":\x7b\"message\":\"rate limited\"\x7d\x7d")))] ∧
    httpErrorMsg 429 (cp ("\x7b\"error\":\x7b\"message\":\"rate limited\"\x7d\x7d")) =
      cp ("rate limited") :=
  ⟨by decide, (c4_http_error [] true 429 _ [] (by decide)).1, rfl⟩

/-- C5: a failure of the network call never propagates: for every input
text, direction and exception category, the stream is the corresponding
diagnostic fragments and then ends — a connection failure gives the
connection diagnostic followed by the checklist, a client error, a timeout
or an unknown failure give one diagnostic each — unless the empty-input
guard answered first. -/
theorem c5_exceptions_become_fragments (pmTpl devTpl : List Nat → List Nat)
    (text : List Nat) (e : NetExn) :
    translatePmToDevStream pmTpl devTpl text (.raised e) =
      (if emptyInput text then [.jstr (cp ("请输入有效的产品需求"))]
       else match e with
       | .connError m =>
         [.jstr (cp ("【网络错误】无法连接到DeepSeek API: ") ++ m),
          .jstr (cp ("请检查：\n1. 网络连接是否正常\n2. API地址是否正确\n3. 防火墙设置"))]
       | .clientError m => [.jstr (cp ("【HTTP错误】请求失败: ") ++ m)]
       | .timeoutError => [.jstr (cp ("【超时错误】API请求超时，请稍后重试"))]
       | .otherError m => [.jstr (cp ("【未知错误】: ") ++ m)]) ∧
    translateDevToPmStream pmTpl devTpl text (.raised e) =
      (if emptyInput text then [.jstr (cp ("请输入有效的技术方案"))]
       else match e with
       | .connError m =>
         [.jstr (cp ("【网络错误】无法连接到DeepSeek API: ") ++ m),
          .jstr (cp ("请检查：\n1. 网络连接是否正常\n2. API地址是否正确\n3. 防火墙设置"))]
       | .clientError m => [.jstr (cp ("【HTTP错误】请求失败: ") ++ m)]
       | .timeoutError => [.jstr (cp ("【超时错误】API请求超时，请稍后重试"))]
       | .otherError m => [.jstr (cp ("【未知错误】: ") ++ m)]) := by
  constructor <;> by_cases hg : emptyInput text <;> cases e <;>
    simp [translatePmToDevStream, translateDevToPmStream, callDeepseekApi, hg]

/-- C6: the buffered operation returns exactly the in-order concatenation
of the streaming fragments on the same input, in both directions, whenever
the fragments are strings (the join raises `TypeError` on any other
fragment). -/
theorem c6_buffered_eq_concat (pmTpl devTpl : List Nat → List Nat) (text : List Nat)
    (net : NetResult)
    (hpm : (translatePmToDevStream pmTpl devTpl text net).all isJStr = true)
    (hdev : (translateDevToPmStream pmTpl devTpl text net).all isJStr = true) :
    translatePmToDev pmTpl devTpl text net =
      .ok (concatStrs (translatePmToDevStream pmTpl devTpl text net)) ∧
    translateDevToPm pmTpl devTpl text net =
      .ok (concatStrs (translateDevToPmStream pmTpl devTpl text net)) :=
  ⟨pyJoin_all_str _ hpm, pyJoin_all_str _ hdev⟩

theorem c6_buffered_eq_concat_witness :
    (translatePmToDevStream id id (cp ("hi")) (.raised .timeoutError)).all isJStr = true ∧
    (translateDevToPmStream id id (cp ("hi")) (.raised .timeoutError)).all isJStr = true ∧
    translatePmToDev id id (cp ("hi")) (.raised .timeoutError) =
      .ok (concatStrs (translatePmToDevStream id id (cp ("hi")) (.raised .timeoutError))) :=
  ⟨rfl, rfl, (c6_buffered_eq_concat id id (cp ("hi")) (.raised .timeoutError) rfl rfl).1⟩

/-- C7: empty or whitespace-only input short-circuits: each streaming
direction yields exactly the one prompt-for-input fragment, and the result
is the same for every network outcome — no request is issued. -/
theorem c7_empty_input (pmTpl devTpl : List Nat → List Nat) (text : List Nat)
    (h : emptyInput text = true) :
    (∀ net, translatePmToDevStream pmTpl devTpl text net =
      [.jstr (cp ("请输入有效的产品需求"))]) ∧
    (∀ net, translateDevToPmStream pmTpl devTpl text net =
      [.jstr (cp ("请输入有效的技术方案"))]) := by
  constructor <;> intro net <;>
    simp [translatePmToDevStream, translateDevToPmStream, h]

theorem c7_empty_input_witness :
    emptyInput (cp ("   ")) = true ∧
    translatePmToDevStream id id (cp ("   ")) (.raised .timeoutError) =
      [.jstr (cp ("请输入有效的产品需求"))] ∧
    translateDevToPmStream id id (cp ("   ")) (.resp 200 [] []) =
      [.jstr (cp ("请输入有效的技术方案"))] :=
  ⟨rfl, (c7_empty_input id id (cp ("   ")) rfl).1 (.raised .timeoutError),
    (c7_empty_input id id (cp ("   ")) rfl).2 (.resp 200 [] [])⟩

/-- C8 as stated fails on the code: decoding indeed never raises, but an
invalid byte sequence is dropped with no replacement — decoding the chunk
`[255]` under `errors=ignore` yields the empty text, which contains no
replacement character `U+FFFD`. -/
theorem c8_counterexample :
    pyDecodeIgnore [255] = [] ∧ ¬ (65533 ∈ pyDecodeIgnore [255]) := by decide

/-- C8 amended: decoding a chunk never fails, and every kind of invalid
UTF-8 byte sequence is dropped (ignored), contributing nothing to the
decoded text, with decoding continuing on the remaining bytes:
a byte that can start no sequence, arriving anywhere the decoder is
between characters, is dropped; a multi-byte sequence broken by an
out-of-range continuation byte is dropped whole, with the offending byte
reconsidered as a fresh start (stated both for the first continuation of
every lead and, in full generality, at the decoder-state level); a
sequence truncated by the end of the chunk is dropped; and no replacement
character is inserted — a chunk made only of invalid bytes decodes to the
empty text. -/
theorem c8_invalid_bytes_dropped :
    (∀ pre b suffix, (List.foldl utf8Step utf8Init pre).need = 0 →
      isInvalidStart b = true →
      pyDecodeIgnore (pre ++ b :: suffix) = pyDecodeIgnore (pre ++ suffix)) ∧
    (∀ pre lead b suffix, (List.foldl utf8Step utf8Init pre).need = 0 →
      194 ≤ lead → lead ≤ 244 → ¬ (contLo lead ≤ b ∧ b ≤ contHi lead) →
      pyDecodeIgnore (pre ++ lead :: b :: suffix) = pyDecodeIgnore (pre ++ b :: suffix)) ∧
    (∀ s b rest, s.need ≠ 0 → ¬ (s.lo ≤ b ∧ b ≤ s.hi) →
      (List.foldl utf8Step s (b :: rest)).out =
        (List.foldl utf8Step { s with need := 0 } (b :: rest)).out) ∧
    (∀ pre tl, (List.foldl utf8Step utf8Init pre).need = 0 →
      isTruncatedSeq tl = true →
      pyDecodeIgnore (pre ++ tl) = pyDecodeIgnore pre) ∧
    (∀ bs, bs.all isInvalidStart = true → pyDecodeIgnore bs = []) := by
  refine ⟨?_, ?_, ?_, ?_, ?_⟩
  · intro pre b suffix hpre hb
    show (List.foldl utf8Step utf8Init (pre ++ b :: suffix)).out.reverse =
      (List.foldl utf8Step utf8Init (pre ++ suffix)).out.reverse
    rw [List.foldl_append, List.foldl_append, List.foldl_cons]
    have hstep : utf8Step (List.foldl utf8Step utf8Init pre) b =
        { List.foldl utf8Step utf8Init pre with need := 0, err := true } := by
      rw [utf8Step_need0 _ b hpre]
      exact utf8Lead_invalid _ b hb
    rw [hstep]
    have hob := foldl_utf8Step_obsR suffix
      { List.foldl utf8Step utf8Init pre with need := 0, err := true }
      (List.foldl utf8Step utf8Init pre)
      ⟨rfl, hpre.symm, fun hc => absurd rfl hc⟩
    rw [hob.1]
  · intro pre lead b suffix hpre h1 h2 hcont
    show (List.foldl utf8Step utf8Init (pre ++ lead :: b :: suffix)).out.reverse =
      (List.foldl utf8Step utf8Init (pre ++ b :: suffix)).out.reverse
    rw [List.foldl_append, List.foldl_append, List.foldl_cons, List.foldl_cons,
      List.foldl_cons]
    obtain ⟨ho, hn, hlo, hhi⟩ :=
      utf8Step_lead_facts (List.foldl utf8Step utf8Init pre) lead hpre h1 h2
    rw [utf8Step_abandon _ b hn (by rw [hlo, hhi]; exact hcont)]
    have hob := foldl_utf8Step_obsR suffix
      (utf8Step { utf8Step (List.foldl utf8Step utf8Init pre) lead with
        need := 0, err := true } b)
      (utf8Step (List.foldl utf8Step utf8Init pre) b)
      (utf8Step_obsR
        { utf8Step (List.foldl utf8Step utf8Init pre) lead with need := 0, err := true }
        (List.foldl utf8Step utf8Init pre)
        ⟨ho, hpre.symm, fun hc => absurd rfl hc⟩ b)
    rw [hob.1]
  · intro s b rest hne hcont
    rw [List.foldl_cons, List.foldl_cons, utf8Step_abandon s b hne hcont]
    exact (foldl_utf8Step_obsR rest _ _
      (utf8Step_obsR { s with need := 0, err := true } { s with need := 0 }
        ⟨rfl, rfl, fun hc => absurd rfl hc⟩ b)).1
  · intro pre tl hpre htr
    show (List.foldl utf8Step utf8Init (pre ++ tl)).out.reverse =
      (List.foldl utf8Step utf8Init pre).out.reverse
    rw [List.foldl_append, foldl_truncated_out _ tl hpre htr]
  · intro bs hall
    show (List.foldl utf8Step utf8Init bs).out.reverse = []
    rw [foldl_invalid_out bs utf8Init rfl hall]
    rfl

theorem c8_invalid_bytes_dropped_witness :
    (List.foldl utf8Step utf8Init (cp ("ab"))).need = 0 ∧
    isInvalidStart 255 = true ∧
    pyDecodeIgnore (cp ("ab") ++ 255 :: cp ("cd")) = pyDecodeIgnore (cp ("ab") ++ cp ("cd")) ∧
    pyDecodeIgnore (cp ("ab") ++ 194 :: 65 :: cp ("cd")) =
      pyDecodeIgnore (cp ("ab") ++ 65 :: cp ("cd")) ∧
    (List.foldl utf8Step (List.foldl utf8Step utf8Init [226]) (97 :: cp ("z"))).out =
      (List.foldl utf8Step
        { List.foldl utf8Step utf8Init [226] with need := 0 } (97 :: cp ("z"))).out ∧
    pyDecodeIgnore (cp ("hi") ++ [226, 128]) = pyDecodeIgnore (cp ("hi")) ∧
    pyDecodeIgnore [255, 254, 250] = [] :=
  ⟨rfl, rfl,
    c8_invalid_bytes_dropped.1 (cp ("ab")) 255 (cp ("cd")) rfl rfl,
    c8_invalid_bytes_dropped.2.1 (cp ("ab")) 194 65 (cp ("cd")) rfl
      (by decide) (by decide) (by decide),
    c8_invalid_bytes_dropped.2.2.1 (List.foldl utf8Step utf8Init [226]) 97 (cp ("z"))
      (by decide) (by decide),
    c8_invalid_bytes_dropped.2.2.2.1 (cp ("hi")) [226, 128] rfl (by decide),
    c8_invalid_bytes_dropped.2.2.2.2 [255, 254, 250] (by decide)⟩

/-- C9: closing is a no-op on an absent or already-closed session, two
successive closes leave the same state as one, and after a close the next
`get_session` hands back a fresh non-closed session, never the one that was
closed (fresh identities are new by the session-counter invariant). -/
theorem c9_session_lifecycle (st : TransState) (hwf : sidInvariant st) :
    ((st.session = none ∨ ∃ s, st.session = some s ∧ s.closed = true) →
      closeSession st = st) ∧
    closeSession (closeSession st) = closeSession st ∧
    (getSession (closeSession st)).1.closed = false ∧
    (∀ s, st.session = some s → (getSession (closeSession st)).1.sid ≠ s.sid) := by
  refine ⟨?_, ?_, ?_, ?_⟩
  · rintro (hnone | ⟨s, hs, hcl⟩)
    · simp [closeSession, hnone]
    · simp [closeSession, hs, hcl]
  · cases hs : st.session with
    | none => simp [closeSession, hs]
    | some s =>
      by_cases hcl : s.closed
      · simp [closeSession, hs, hcl]
      · simp [closeSession, hs, hcl]
  · cases hs : st.session with
    | none => simp [closeSession, getSession, hs]
    | some s =>
      by_cases hcl : s.closed
      · simp [closeSession, getSession, hs, hcl]
      · simp [closeSession, getSession, hs, hcl]
  · intro s hs
    have hsid := hwf s hs
    by_cases hcl : s.closed
    · simp [closeSession, getSession, hs, hcl]
      omega
    · simp [closeSession, getSession, hs, hcl]
      omega

theorem c9_session_lifecycle_witness :
    sidInvariant ⟨some ⟨0, false⟩, 1⟩ ∧
    closeSession (closeSession ⟨some ⟨0, false⟩, 1⟩) = closeSession ⟨some ⟨0, false⟩, 1⟩ ∧
    (getSession (closeSession ⟨some ⟨0, false⟩, 1⟩)).1.closed = false ∧
    (getSession (closeSession ⟨some ⟨0, false⟩, 1⟩)).1.sid ≠ 0 := by
  have hwf : sidInvariant ⟨some ⟨0, false⟩, 1⟩ := by
    intro s hs
    injection hs with h
    rw [← h]
    decide
  exact ⟨hwf, (c9_session_lifecycle _ hwf).2.1, (c9_session_lifecycle _ hwf).2.2.1,
    (c9_session_lifecycle _ hwf).2.2.2 ⟨0, false⟩ rfl⟩

/-- C10: residual data left in the buffer when the body is exhausted — a
final event not terminated by a newline — is silently discarded: it is
never decoded as JSON, yields no fragment and produces no error, so
appending such a trailing chunk never changes the emitted fragments. -/
theorem c10_residual_discarded (chunks : List (List Nat)) (extra : List Nat)
    (h : (10 : Nat) ∉ pyDecodeIgnore extra) :
    streamFrags (chunks ++ [extra]) = streamFrags chunks := by
  show (streamLoop (chunks ++ [extra]) []).1 = (streamLoop chunks []).1
  rw [streamLoop_frags (chunks ++ [extra]) [] (by simp),
    streamLoop_frags chunks [] (by simp)]
  simp only [List.nil_append]
  have hacc : accText (chunks ++ [extra]) = accText chunks ++ pyDecodeIgnore extra := by
    simp [accText]
  have hno : (10 : Nat) ∉ lastSeg (accText chunks) ++ pyDecodeIgnore extra := by
    intro hm
    rcases List.mem_append.mp hm with h1 | h2
    · exact nl_not_mem_lastSeg _ h1
    · exact h h2
  rw [hacc, completeLines_append, completeLines_noNl _ hno, List.append_nil]

theorem c10_residual_discarded_witness :
    ((10 : Nat) ∉ pyDecodeIgnore (utf8Enc xContentLine)) ∧
    streamFrags ([utf8Enc (cp ("data: [DONE]\n"))] ++ [utf8Enc xContentLine]) =
      streamFrags [utf8Enc (cp ("data: [DONE]\n"))] :=
  ⟨by decide, c10_residual_discarded _ _ (by decide)⟩

end AiEngine
